import Mathlib

set_option autoImplicit false

/-
Verification of the master HTTP request layer (src/master/http.cpp):
scheduler call dispatch, resource-operation admission (rescission), and
the machine maintenance lifecycle.  The embedding translates the handler
bodies; external collaborators (resource algebra, registrar, allocator,
base64, JSON parsing) are modelled from the spec or taken as parameters,
as noted on each definition.
-/

namespace Mesos

abbrev SlaveID := String

abbrev FrameworkID := String

abbrev OfferID := String

abbrev MachineID := String

/-- Modelled from the spec: a single resource of the resource algebra
(src/common/resources.cpp is not part of this repository snapshot).
A resource is a named scalar quantity together with the metadata the
admission endpoints manipulate: the role, the optional reservation
principal (ReservationInfo) and the optional DiskInfo. -/
structure Resource where
  name : String
  amount : Nat
  role : String
  reservationPrincipal : Option String
  disk : Option String
  deriving DecidableEq, Repr

/-- Modelled from the spec: a resource bundle is a collection of resources. -/
abbrev Resources := List Resource

/-- Two resources can be merged (added / subtracted against each other)
when all their metadata coincide. -/
def Resource.sameKind (a b : Resource) : Bool :=
  a.name == b.name && a.role == b.role &&
    a.reservationPrincipal == b.reservationPrincipal && a.disk == b.disk

/-- Modelled from the spec: adding one resource into a bundle merges it
into the first entry with identical metadata, else appends it. -/
def Resources.addOne : Resources → Resource → Resources
  | [], r => [r]
  | x :: xs, r =>
    if x.sameKind r then { x with amount := x.amount + r.amount } :: xs
    else x :: Resources.addOne xs r

/-- Modelled from the spec: bundle addition. -/
def Resources.add (a b : Resources) : Resources := b.foldl Resources.addOne a

/-- Modelled from the spec: subtracting one resource from a bundle
decreases the first entry with identical metadata (never below zero,
and the entry is erased when it reaches zero); subtracting a resource
with no matching entry is a no-op. -/
def Resources.subOne : Resources → Resource → Resources
  | [], _ => []
  | x :: xs, r =>
    if x.sameKind r then
      if x.amount - r.amount == 0 then xs
      else { x with amount := x.amount - r.amount } :: xs
    else x :: Resources.subOne xs r

/-- Modelled from the spec: bundle subtraction. -/
def Resources.sub (a b : Resources) : Resources := b.foldl Resources.subOne a

/-- Total quantity a bundle holds of the kind of a given resource. -/
def Resources.quantity (rs : Resources) (r : Resource) : Nat :=
  (rs.filter (fun x => x.sameKind r)).foldl (fun n x => n + x.amount) 0

/-- Modelled from the spec: bundle equality is quantity-extensional
(each bundle contains the other). -/
def Resources.equiv (a b : Resources) : Bool :=
  (a ++ b).all (fun r => a.quantity r == b.quantity r)

/-- Modelled from the spec (source comment at the reserve endpoint):
flatten removes the role and the ReservationInfo from the resources,
resetting the role to the default role. -/
def Resources.flatten (rs : Resources) : Resources :=
  rs.map (fun r => { r with role := "*", reservationPrincipal := none })

/-- Translated from `removeDiskInfos` (http.cpp): clears the DiskInfo
of every resource in the bundle. -/
def removeDiskInfos (resources : Resources) : Resources :=
  resources.map (fun r => { r with disk := none })

/-- An outstanding offer: identity, owning framework, owning agent and
its resource bundle. -/
structure Offer where
  id : OfferID
  frameworkId : FrameworkID
  slaveId : SlaveID
  resources : Resources
  deriving DecidableEq, Repr

/-- The slice of master agent state the admission endpoints read:
identity, outstanding offers, checkpointed resources. -/
structure Slave where
  id : SlaveID
  offers : List Offer
  checkpointedResources : Resources
  deriving DecidableEq, Repr

inductive ContentType where
  | json
  | protobuf
  deriving DecidableEq, Repr

/-- The HTTP responses the translated handlers produce. -/
inductive Response where
  | ok
  | accepted
  | streamingOk (contentType : ContentType)
  | badRequest (msg : String)
  | forbidden (msg : String)
  | conflict (msg : String)
  | unauthorized (msg : String)
  | notAcceptable (msg : String)
  deriving DecidableEq, Repr

/-- Observable outcome of the rescission loop of `Master::Http::_operation`:
the accumulated recovered resources, the still-required resources, the
offers rescinded (in rescission order), the offers left outstanding on the
agent, and whether the loop stopped early via the sufficiency break. -/
structure RescindResult where
  recovered : Resources
  required : Resources
  rescinded : List Offer
  remaining : List Offer
  stopped : Bool
  deriving DecidableEq, Repr

/-- Translated from the offer loop of `Master::Http::_operation`
(http.cpp lines 2674-2700).  `applyOp` stands for the external
`Resources::apply(operation)` of the resource algebra (absent from this
snapshot): `applyOp recovered` is `some` exactly when the operation
applies cleanly against the accumulated recovered resources.  For each
offer: if rescinding it would not reduce the still-required resources,
skip it; otherwise accumulate and rescind it, and stop as soon as the
operation applies against the recovered resources. -/
def rescindLoop (applyOp : Resources → Option Resources) :
    List Offer → Resources → Resources → RescindResult
  | [], recovered, required =>
    { recovered := recovered, required := required,
      rescinded := [], remaining := [], stopped := false }
  | offer :: rest, recovered, required =>
    if Resources.equiv required (required.sub offer.resources) then
      let r := rescindLoop applyOp rest recovered required
      { r with remaining := offer :: r.remaining }
    else
      let recovered := recovered.add offer.resources
      let required := required.sub offer.resources
      if (applyOp recovered).isSome then
        { recovered := recovered, required := required,
          rescinded := [offer], remaining := rest, stopped := true }
      else
        let r := rescindLoop applyOp rest recovered required
        { r with rescinded := offer :: r.rescinded }

/-- Translated from `Master::Http::_operation` (http.cpp lines 2655-2709):
resolve the agent (unknown agent is a bad request), run the rescission
loop over its outstanding offers, then submit the operation for
asynchronous application.  `applyOutcome` stands for the resolution of
the external `master->apply(slave, operation)` future; its success maps
to OK and its failure to Conflict carrying the failure detail.  The
continuation performs no state change: the post-rescission offers stand
regardless of the outcome. -/
def httpOperation (slaves : List Slave) (slaveId : SlaveID) (required : Resources)
    (applyOp : Resources → Option Resources) (applyOutcome : Except String Unit) :
    Response × List Slave :=
  match slaves.find? (fun s => s.id == slaveId) with
  | none => (.badRequest "No slave found with specified ID", slaves)
  | some slave =>
    let r := rescindLoop applyOp slave.offers [] required
    let slaves' := slaves.map
      (fun s => if s.id == slaveId then { s with offers := r.remaining } else s)
    match applyOutcome with
    | .ok _ => (.ok, slaves')
    | .error msg => (.conflict msg, slaves')

def cpusRes (n : Nat) : Resource :=
  { name := "cpus", amount := n, role := "*", reservationPrincipal := none, disk := none }

def offerA : Offer :=
  { id := "O1", frameworkId := "F1", slaveId := "S1", resources := [cpusRes 2] }

def offerB : Offer :=
  { id := "O2", frameworkId := "F1", slaveId := "S1", resources := [cpusRes 2] }

def offerC : Offer :=
  { id := "O3", frameworkId := "F2", slaveId := "S1", resources := [cpusRes 1] }

/-- A concrete operation-application function: applying succeeds exactly
when at least four cpus have been accumulated. -/
def applyW : Resources → Option Resources :=
  fun rs => if 4 ≤ rs.quantity (cpusRes 0) then some rs else none

def slaveW : Slave :=
  { id := "S1", offers := [offerA, offerB, offerC], checkpointedResources := [] }

inductive Mode where
  | up
  | draining
  | down
  deriving DecidableEq, Repr

/-- An unavailability interval: a start point and an optional duration. -/
structure Unavailability where
  start : Nat
  duration : Option Nat
  deriving DecidableEq, Repr

/-- The per-machine state of `Master::Machine`: the MachineInfo mode and
unavailability, plus the set of agents currently located on the machine. -/
structure MachineEntry where
  mode : Mode
  unavailability : Option Unavailability
  slaves : List SlaveID
  deriving DecidableEq, Repr

/-- A maintenance window: machine identities plus an unavailability. -/
structure Window where
  machineIds : List MachineID
  unavailability : Unavailability
  deriving DecidableEq, Repr

/-- A maintenance schedule is its ordered collection of windows. -/
abbrev Schedule := List Window

/-- The slice of master state the maintenance handlers touch: the machine
map, the stored schedules, the registered-agent store, and the log of
agents to which a shutdown message has been sent. -/
structure MaintState where
  machines : List (MachineID × MachineEntry)
  schedules : List Schedule
  registered : List SlaveID
  sentShutdowns : List SlaveID
  deriving DecidableEq, Repr

def lookupMachine (ms : List (MachineID × MachineEntry)) (id : MachineID) :
    Option MachineEntry :=
  (ms.find? (fun p => p.1 == id)).map Prod.snd

/-- Rewrite every entry of the machine map in place, the new entry value
depending on the key. -/
def mapEntriesKeyed (ms : List (MachineID × MachineEntry))
    (f : MachineID → MachineEntry → MachineEntry) : List (MachineID × MachineEntry) :=
  ms.map (fun p => (p.1, f p.1 p.2))

def containsMachine (ms : List (MachineID × MachineEntry)) (id : MachineID) : Bool :=
  (ms.find? (fun p => p.1 == id)).isSome

/-- Rewrite every entry stored under `id` in place. -/
def mapMachine (ms : List (MachineID × MachineEntry)) (id : MachineID)
    (f : MachineEntry → MachineEntry) : List (MachineID × MachineEntry) :=
  ms.map (fun p => if p.1 == id then (p.1, f p.2) else p)

/-- The effect of `machines[id].info.CopyFrom(info)`: replace the machine's
MachineInfo (mode and unavailability) wholesale, keeping its agent set;
the entry is default-created when absent, as by `hashmap::operator[]`. -/
def setMachineInfo (ms : List (MachineID × MachineEntry)) (id : MachineID)
    (mode : Mode) (unav : Option Unavailability) : List (MachineID × MachineEntry) :=
  if containsMachine ms id then
    mapMachine ms id (fun e => { e with mode := mode, unavailability := unav })
  else ms ++ [(id, { mode := mode, unavailability := unav, slaves := [] })]

/-- The effect of `machines[id].info.set_mode(m)`: set only the mode. -/
def setMode (ms : List (MachineID × MachineEntry)) (id : MachineID) (mode : Mode) :
    List (MachineID × MachineEntry) :=
  if containsMachine ms id then mapMachine ms id (fun e => { e with mode := mode })
  else ms ++ [(id, { mode := mode, unavailability := none, slaves := [] })]

/-- Modelled from the spec: `Master::updateUnavailability` (master.cpp is
absent from this snapshot) stores the given unavailability on the machine;
its inverse-offer side effects are outside this spec's scope. -/
def updateUnavailability (ms : List (MachineID × MachineEntry)) (id : MachineID)
    (unav : Option Unavailability) : List (MachineID × MachineEntry) :=
  if containsMachine ms id then
    mapMachine ms id (fun e => { e with unavailability := unav })
  else ms ++ [(id, { mode := .up, unavailability := unav, slaves := [] })]

def insertUnav (m : List (MachineID × Unavailability)) (id : MachineID)
    (u : Unavailability) : List (MachineID × Unavailability) :=
  if (m.find? (fun p => p.1 == id)).isSome then
    m.map (fun p => if p.1 == id then (p.1, u) else p)
  else m ++ [(id, u)]

def lookupUnav (m : List (MachineID × Unavailability)) (id : MachineID) :
    Option Unavailability :=
  (m.find? (fun p => p.1 == id)).map Prod.snd

/-- Translated from maintenanceSchedule (http.cpp 2202-2209): collect the
machines of the updated schedule into a map from machine to the
unavailability of its window. -/
def updatedMap (schedule : Schedule) : List (MachineID × Unavailability) :=
  schedule.foldl
    (fun m w => w.machineIds.foldl (fun m id => insertUnav m id w.unavailability) m) []

/-- Translated from the second loop of the maintenanceSchedule
continuation (http.cpp 2228-2238), one machine of one window: store a
fresh MachineInfo in DRAINING mode (keeping the machine's agent set),
then store the window's unavailability. -/
def windowStep (w : Window) (ms : List (MachineID × MachineEntry))
    (id : MachineID) : List (MachineID × MachineEntry) :=
  updateUnavailability (setMachineInfo ms id .draining none) id
    (some w.unavailability)

/-- Translated from the POST continuation of `Master::Http::maintenanceSchedule`
(http.cpp 2187-2245), the part that runs once registrar persistence of the
UpdateSchedule operation has succeeded (its failure is a fatal CHECK).
The in-memory update is a diff: machines of the new schedule get their
window's unavailability (first loop keeps the mode, second loop then
stores a fresh DRAINING MachineInfo for every machine of the new
schedule); machines known before but absent from the new schedule are
reset to UP with unavailability cleared; the stored schedule list is
replaced wholesale by the new schedule. -/
def updateScheduleApply (s : MaintState) (schedule : Schedule) : MaintState :=
  let upd := updatedMap schedule
  let machines₁ := mapEntriesKeyed s.machines (fun id e =>
    match lookupUnav upd id with
    | some u => { e with unavailability := some u }
    | none => { e with mode := .up, unavailability := none })
  let machines₂ := schedule.foldl (fun ms w =>
    w.machineIds.foldl (windowStep w) ms) machines₁
  { s with machines := machines₂, schedules := [schedule] }

/-- Translated from the validation loops of machineDown (http.cpp
2289-2301) and machineUp (2390-2402): every machine of the request must
be known and in the expected mode, else the request is rejected. -/
def checkMachines (ms : List (MachineID × MachineEntry)) (expected : Mode)
    (modeErr : String) : List MachineID → Option String
  | [] => none
  | id :: rest =>
    match lookupMachine ms id with
    | none => some "Machine is not part of a maintenance schedule"
    | some e =>
      if e.mode = expected then checkMachines ms expected modeErr rest
      else some modeErr

/-- Modelled from the spec: `Master::removeSlave` (master.cpp is absent
from this snapshot) removes the agent from the registered-agent store and
from its machine's agent set; the TASK_LOST / LostSlaveMessage fan-out it
triggers is outside this spec's scope. -/
def removeSlave (s : MaintState) (slaveId : SlaveID) : MaintState :=
  { s with
    registered := s.registered.filter (fun x => !(x == slaveId)),
    machines := mapEntriesKeyed s.machines (fun _ e =>
      { e with slaves := e.slaves.filter (fun x => !(x == slaveId)) }) }

/-- Translated from the inner loop of the machineDown continuation
(http.cpp 2322-2337): for each agent on the machine, send it a
ShutdownMessage and immediately remove it, without waiting for the agent
to acknowledge.  `none` models the fatal CHECK_NOTNULL on an agent
missing from the registered store. -/
def shutdownSlaves (s : MaintState) : List SlaveID → Option MaintState
  | [] => some s
  | slaveId :: rest =>
    if s.registered.contains slaveId then
      shutdownSlaves
        (removeSlave { s with sentShutdowns := s.sentShutdowns ++ [slaveId] } slaveId)
        rest
    else none

/-- Translated from the outer loop of the machineDown continuation
(http.cpp 2316-2339): shut down and remove the agents of each targeted
machine (a machine without an entry is a no-op). -/
def downFanout (s : MaintState) : List MachineID → Option MaintState
  | [] => some s
  | id :: rest =>
    match lookupMachine s.machines id with
    | none => downFanout s rest
    | some e =>
      match shutdownSlaves s e.slaves with
      | none => none
      | some s' => downFanout s' rest

/-- Translated from `Master::Http::machineDown` (http.cpp 2263-2348), from
the point where the machine id list has been parsed and validated.  The
registrar StartMaintenance persistence is modelled as successful (its
failure is a fatal CHECK); `none` models a fatal CHECK_NOTNULL. -/
def machineDown (s : MaintState) (ids : List MachineID) :
    Option (Response × MaintState) :=
  match checkMachines s.machines .draining
      "Machine is not in DRAINING mode and cannot be brought down" ids with
  | some err => some (.badRequest err, s)
  | none =>
    match downFanout s ids with
    | none => none
    | some s' =>
      some (.ok, { s' with
        machines := ids.foldl (fun ms id => setMode ms id .down) s'.machines })

/-- Translated from the pruning loops of the machineUp continuation
(http.cpp 2420-2445): delete the reactivated machines from every window,
delete a window that becomes (or is) empty. -/
def pruneWindow (updated : List MachineID) (w : Window) : Option Window :=
  let ids := w.machineIds.filter (fun id => !(updated.contains id))
  if ids.isEmpty then none else some { w with machineIds := ids }

/-- Translated from `Master::Http::machineUp` (http.cpp 2365-2449), from
the point where the machine id list has been parsed and validated.  The
registrar StopMaintenance persistence is modelled as successful (its
failure is a fatal CHECK).  On success each targeted machine is marked UP
with unavailability cleared, and the stored schedules are pruned: the
machines are removed from every window, empty windows are deleted, and an
empty schedule is deleted entirely. -/
def machineUp (s : MaintState) (ids : List MachineID) : Response × MaintState :=
  match checkMachines s.machines .down
      "Machine is not in DOWN mode and cannot be brought up" ids with
  | some err => (.badRequest err, s)
  | none =>
    let machines := ids.foldl
      (fun ms id => setMachineInfo ms id .up none) s.machines
    let schedules :=
      (s.schedules.map (fun sch => sch.filterMap (pruneWindow ids))).filter
        (fun sch => !sch.isEmpty)
    (.ok, { s with machines := machines, schedules := schedules })

/-- A machine passes the machineDown / machineUp validation loop when it
is known and in the expected mode. -/
def validMachine (ms : List (MachineID × MachineEntry)) (expected : Mode)
    (id : MachineID) : Bool :=
  match lookupMachine ms id with
  | some e => e.mode == expected
  | none => false

def maintW : MaintState :=
  { machines := [("M1", { mode := .up, unavailability := none, slaves := [] })],
    schedules := [], registered := [], sentShutdowns := [] }

def slaveU : SlaveID := "SL1"

def maintDownW : MaintState :=
  { machines :=
      [("M1", { mode := .down,
                unavailability := some { start := 1, duration := some 2 },
                slaves := [] }),
       ("M2", { mode := .draining,
                unavailability := some { start := 3, duration := none },
                slaves := [slaveU] })],
    schedules := [[{ machineIds := ["M1", "M2"],
                     unavailability := { start := 1, duration := some 2 } }]],
    registered := [slaveU], sentShutdowns := [] }

/-- The agent has been sent a shutdown message and removed from the
registered-agent store. -/
def shutdownDone (s : MaintState) (sl : SlaveID) : Prop :=
  sl ∈ s.sentShutdowns ∧ sl ∉ s.registered

def maintDrainW : MaintState :=
  { machines :=
      [("M2", { mode := .draining,
                unavailability := some { start := 3, duration := none },
                slaves := [slaveU] })],
    schedules := [], registered := [slaveU], sentShutdowns := [] }

/-- The machine is stored in DRAINING mode with the unavailability of
window `w`. -/
def drainingAt (w : Window) (ms : List (MachineID × MachineEntry))
    (id : MachineID) : Prop :=
  ∃ e, lookupMachine ms id = some e ∧
    e.mode = .draining ∧ e.unavailability = some w.unavailability

def unavW₁ : Unavailability := { start := 10, duration := some 5 }

def unavW₂ : Unavailability := { start := 20, duration := none }

def maintSchedW : MaintState :=
  { machines :=
      [("M1", { mode := .draining, unavailability := some unavW₁, slaves := [] }),
       ("M2", { mode := .draining, unavailability := some unavW₁, slaves := [] })],
    schedules := [[{ machineIds := ["M1", "M2"], unavailability := unavW₁ }]],
    registered := [], sentShutdowns := [] }

def schedNewW : Schedule := [{ machineIds := ["M2", "M3"], unavailability := unavW₂ }]

/-- The call types of scheduler::Call that reach dispatch (an unhandled
type is excluded by the upstream call validation; reaching the switch
default is a fatal programming-invariant violation). -/
inductive CallType where
  | subscribe
  | teardown
  | accept
  | decline
  | revive
  | suppress
  | kill
  | shutdown
  | acknowledge
  | reconcile
  | message
  | request
  deriving DecidableEq, Repr

/-- A validated scheduler call: its type and the referenced framework. -/
structure Call where
  ctype : CallType
  frameworkId : FrameworkID
  deriving DecidableEq, Repr

/-- The slice of master state the scheduler dispatch touches: the
framework registry (with the connected flag) and the log of asynchronous
master actions dispatched (subscribe, removeFramework, accept, ...). -/
structure SchedState where
  frameworks : List (FrameworkID × Bool)
  actions : List (CallType × FrameworkID)
  deriving DecidableEq, Repr

def lookupFramework (fs : List (FrameworkID × Bool)) (id : FrameworkID) :
    Option Bool :=
  (fs.find? (fun p => p.1 == id)).map Prod.snd

/-- Translated from the dispatch part of `Master::Http::scheduler`
(http.cpp 788-879), after the body has been parsed and the call
validated.  For SUBSCRIBE, the response encoding is negotiated from the
request's accept preferences: JSON preferred, protobuf fallback, and
NotAcceptable with no subscription when neither is accepted; on success
a streaming (pipe-backed) OK carrying the negotiated content type is
returned immediately, while the subscription itself is dispatched
asynchronously (recorded here as an action, on which the response does
not depend).  Every other call type requires the referenced framework to
exist (else BadRequest) and be connected (else Forbidden); on success
exactly one master action is dispatched and Accepted returned. -/
def schedulerDispatch (s : SchedState) (acceptsJson acceptsProtobuf : Bool)
    (call : Call) : Response × SchedState :=
  if call.ctype = .subscribe then
    if acceptsJson then
      (.streamingOk .json,
       { s with actions := s.actions ++ [(.subscribe, call.frameworkId)] })
    else if acceptsProtobuf then
      (.streamingOk .protobuf,
       { s with actions := s.actions ++ [(.subscribe, call.frameworkId)] })
    else
      (.notAcceptable "Expecting Accept to allow application/x-protobuf or application/json", s)
  else
    match lookupFramework s.frameworks call.frameworkId with
    | none => (.badRequest "Framework cannot be found", s)
    | some connected =>
      if !connected then (.forbidden "Framework is not subscribed", s)
      else (.accepted, { s with actions := s.actions ++ [(call.ctype, call.frameworkId)] })

def schedW : SchedState :=
  { frameworks := [("F1", false), ("F2", true)], actions := [] }

/-- A stored credential: principal and secret. -/
structure Credential where
  principal : String
  secret : String
  deriving DecidableEq, Repr

/-- The `Result<Credential>` of `Master::Http::authenticate`: `anonymous`
is `None()` (authenticated with no principal), `credential` a matched
credential, `err` a rejection. -/
inductive AuthResult where
  | anonymous
  | credential (c : Credential)
  | err (msg : String)
  deriving DecidableEq, Repr

def AuthResult.isError : AuthResult → Bool
  | .err _ => true
  | _ => false

/-- Break a character list at the first occurrence of a character. -/
def breakAtChar : List Char → Char → Option (List Char × List Char)
  | [], _ => none
  | x :: xs, c =>
    if x = c then some ([], xs)
    else match breakAtChar xs c with
      | none => none
      | some (pre, post) => some (x :: pre, post)

/-- Modelled from the spec: stout `strings::split(s, delim, 2)` splits at
the first occurrence of the delimiter character only, keeping the
remainder whole; a string without the delimiter yields a single token. -/
def splitMax2 (s : String) (c : Char) : List String :=
  match breakAtChar s.toList c with
  | none => [s]
  | some (pre, post) => [String.mk pre, String.mk post]

/-- Translated from `Master::Http::authenticate` (http.cpp 2613-2652).
With no credentials configured every request authenticates with no
principal.  Otherwise the Authorization header is required, its second
space-separated token is base64-decoded (`b64` stands for the external
`base64::decode`), the decoding must split into exactly two fields
around a colon, and the pair must match a stored credential.  The code
indexes the space-split at position 1 without a size check, so a header
containing no space makes it read past the end of the vector: that
undefined access is modelled as `none`. -/
def authenticate (credentials : Option (List Credential))
    (b64 : String → Except String String)
    (headers : List (String × String)) : Option AuthResult :=
  match credentials with
  | none => some .anonymous
  | some creds =>
    match headers.find? (fun p => p.1 == "Authorization") with
    | none => some (.err "Missing Authorization request header")
    | some p =>
      match (splitMax2 p.2 ' ').get? 1 with
      | none => none
      | some tok =>
        match b64 tok with
        | .error e => some (.err ("Failed to decode Authorization header: " ++ e))
        | .ok decoded =>
          match splitMax2 decoded ':' with
          | [username, password] =>
            match creds.find?
                (fun c => c.principal == username && c.secret == password) with
            | some c => some (.credential c)
            | none => some (.err ("Could not authenticate " ++ username))
          | _ => some (.err "Malformed Authorization request header")

inductive OperationType where
  | reserve
  | unreserve
  | create
  | destroy
  deriving DecidableEq, Repr

/-- A typed resource operation (Offer::Operation). -/
structure Operation where
  opType : OperationType
  resources : Resources
  deriving DecidableEq, Repr

/-- The admission request an operator endpoint hands to
`Master::Http::_operation`: the agent, the resources required to be
free, and the operation itself. -/
structure OperationCall where
  slaveId : SlaveID
  required : Resources
  operation : Operation
  deriving DecidableEq, Repr

/-- Translated from `Master::Http::createVolumes` (http.cpp 907-980).
External collaborators enter as parameters: `b64` is base64 decoding,
`decodeError` the failure of `process::http::query::decode` on the
body, `slaveIdParam` and `volumesParam` the decoded form values (with
the JSON parse outcome for the volumes), `validateError` the result of
the external `validation::operation::validate`.  The outcome is either
an early response or the admission call handed to `_operation`; `none`
models the crash inside `authenticate`. -/
def createVolumes (credentials : Option (List Credential))
    (b64 : String → Except String String) (slaves : List Slave)
    (method : String) (headers : List (String × String))
    (decodeError : Option String) (slaveIdParam : Option String)
    (volumesParam : Option (Except String Resources))
    (validateError : Option String) : Option (Except Response OperationCall) :=
  if method ≠ "POST" then some (.error (.badRequest "Expecting POST"))
  else match authenticate credentials b64 headers with
  | none => none
  | some (.err e) => some (.error (.unauthorized e))
  | some _ =>
    match decodeError with
    | some e => some (.error (.badRequest ("Unable to decode query string: " ++ e)))
    | none =>
      match slaveIdParam with
      | none => some (.error (.badRequest "Missing slaveId query parameter"))
      | some sid =>
        match slaves.find? (fun s => s.id == sid) with
        | none => some (.error (.badRequest "No slave found with specified ID"))
        | some _ =>
          match volumesParam with
          | none => some (.error (.badRequest "Missing volumes query parameter"))
          | some (.error e) =>
            some (.error (.badRequest ("Error in parsing volumes query parameter: " ++ e)))
          | some (.ok volumes) =>
            match validateError with
            | some e => some (.error (.badRequest ("Invalid CREATE operation: " ++ e)))
            | none =>
              some (.ok { slaveId := sid, required := removeDiskInfos volumes,
                          operation := { opType := .create, resources := volumes } })

/-- Translated from `Master::Http::reserve` (http.cpp 1321-1398); same
parameter conventions as `createVolumes`.  The required resources handed
to `_operation` are the requested resources flattened (role and
reservation stripped). -/
def reserve (credentials : Option (List Credential))
    (b64 : String → Except String String) (slaves : List Slave)
    (method : String) (headers : List (String × String))
    (decodeError : Option String) (slaveIdParam : Option String)
    (resourcesParam : Option (Except String Resources))
    (validateError : Option String) : Option (Except Response OperationCall) :=
  if method ≠ "POST" then some (.error (.badRequest "Expecting POST"))
  else match authenticate credentials b64 headers with
  | none => none
  | some (.err e) => some (.error (.unauthorized e))
  | some _ =>
    match decodeError with
    | some e => some (.error (.badRequest ("Unable to decode query string: " ++ e)))
    | none =>
      match slaveIdParam with
      | none => some (.error (.badRequest "Missing slaveId query parameter"))
      | some sid =>
        match slaves.find? (fun s => s.id == sid) with
        | none => some (.error (.badRequest "No slave found with specified ID"))
        | some _ =>
          match resourcesParam with
          | none => some (.error (.badRequest "Missing resources query parameter"))
          | some (.error e) =>
            some (.error (.badRequest ("Error in parsing resources query parameter: " ++ e)))
          | some (.ok resources) =>
            match validateError with
            | some e => some (.error (.badRequest ("Invalid RESERVE operation: " ++ e)))
            | none =>
              some (.ok { slaveId := sid, required := resources.flatten,
                          operation := { opType := .reserve, resources := resources } })

/-- Translated from `Master::Http::destroyVolumes` (http.cpp 995-1065);
the required resources handed to `_operation` are the requested volumes
unchanged. -/
def destroyVolumes (credentials : Option (List Credential))
    (b64 : String → Except String String) (slaves : List Slave)
    (method : String) (headers : List (String × String))
    (decodeError : Option String) (slaveIdParam : Option String)
    (volumesParam : Option (Except String Resources))
    (validateError : Option String) : Option (Except Response OperationCall) :=
  if method ≠ "POST" then some (.error (.badRequest "Expecting POST"))
  else match authenticate credentials b64 headers with
  | none => none
  | some (.err e) => some (.error (.unauthorized e))
  | some _ =>
    match decodeError with
    | some e => some (.error (.badRequest ("Unable to decode query string: " ++ e)))
    | none =>
      match slaveIdParam with
      | none => some (.error (.badRequest "Missing slaveId query parameter"))
      | some sid =>
        match slaves.find? (fun s => s.id == sid) with
        | none => some (.error (.badRequest "No slave found with specified ID"))
        | some _ =>
          match volumesParam with
          | none => some (.error (.badRequest "Missing volumes query parameter"))
          | some (.error e) =>
            some (.error (.badRequest ("Error in parsing volumes query parameter: " ++ e)))
          | some (.ok volumes) =>
            match validateError with
            | some e => some (.error (.badRequest ("Invalid DESTROY operation: " ++ e)))
            | none =>
              some (.ok { slaveId := sid, required := volumes,
                          operation := { opType := .destroy, resources := volumes } })

/-- Translated from `Master::Http::unreserve` (http.cpp 2540-2610); the
required resources handed to `_operation` are the requested resources
unchanged. -/
def unreserve (credentials : Option (List Credential))
    (b64 : String → Except String String) (slaves : List Slave)
    (method : String) (headers : List (String × String))
    (decodeError : Option String) (slaveIdParam : Option String)
    (resourcesParam : Option (Except String Resources))
    (validateError : Option String) : Option (Except Response OperationCall) :=
  if method ≠ "POST" then some (.error (.badRequest "Expecting POST"))
  else match authenticate credentials b64 headers with
  | none => none
  | some (.err e) => some (.error (.unauthorized e))
  | some _ =>
    match decodeError with
    | some e => some (.error (.badRequest ("Unable to decode query string: " ++ e)))
    | none =>
      match slaveIdParam with
      | none => some (.error (.badRequest "Missing slaveId query parameter"))
      | some sid =>
        match slaves.find? (fun s => s.id == sid) with
        | none => some (.error (.badRequest "No slave found with specified ID"))
        | some _ =>
          match resourcesParam with
          | none => some (.error (.badRequest "Missing resources query parameter"))
          | some (.error e) =>
            some (.error (.badRequest ("Error in parsing resources query parameter: " ++ e)))
          | some (.ok resources) =>
            match validateError with
            | some e => some (.error (.badRequest ("Invalid UNRESERVE operation: " ++ e)))
            | none =>
              some (.ok { slaveId := sid, required := resources,
                          operation := { opType := .unreserve, resources := resources } })

/-- Translated from `Master::Http::teardown` (http.cpp 1928-2005).
`authorizer` stands for the external authorizer: `none` when the master
has no ACLs configured (authorization skipped), `some b` for the
resolution of its `authorize(shutdown)` future.  `_teardown` removes the
framework and answers OK. -/
def teardown (credentials : Option (List Credential))
    (b64 : String → Except String String)
    (headers : List (String × String)) (method : String)
    (decodeError : Option String) (frameworkIdParam : Option String)
    (frameworks : List FrameworkID) (authorizer : Option Bool) :
    Option Response :=
  if method ≠ "POST" then some (.badRequest "Expecting POST")
  else match authenticate credentials b64 headers with
  | none => none
  | some (.err e) => some (.unauthorized e)
  | some _ =>
    match decodeError with
    | some e => some (.badRequest ("Unable to decode query string: " ++ e))
    | none =>
      match frameworkIdParam with
      | none => some (.badRequest "Missing frameworkId query parameter")
      | some fid =>
        if frameworks.contains fid then
          match authorizer with
          | none => some .ok
          | some authorized =>
            if authorized then some .ok else some (.unauthorized "Mesos master")
        else some (.badRequest "No framework found with specified ID")

def Response.isUnauthorized : Response → Bool
  | .unauthorized _ => true
  | _ => false

/-- The full response of an operator admission endpoint: an early
response, or the response of `_operation` on the admitted call. -/
def endpointResponse (out : Option (Except Response OperationCall))
    (slaves : List Slave) (applyOp : Resources → Option Resources)
    (applyOutcome : Except String Unit) : Option Response :=
  match out with
  | none => none
  | some (.error r) => some r
  | some (.ok c) => some (httpOperation slaves c.slaveId c.required applyOp applyOutcome).1

/-- A base64 decoder that accepts everything unchanged. -/
def b64W : String → Except String String := fun s => .ok s

def volW : Resources :=
  [{ name := "disk", amount := 64, role := "roleA",
     reservationPrincipal := some "op", disk := some "vol1" }]

def resW : Resources :=
  [{ name := "cpus", amount := 2, role := "roleA",
     reservationPrincipal := some "op", disk := none }]

def credW : Credential := { principal := "user", secret := "pass" }

def b64ErrW : String → Except String String := fun _ => .error "bad"

/-- The rescission loop splits over list append: if the loop over the
first segment does not stop early, the loop over the whole list
continues into the second segment from the accumulated state; if it
does stop, the second segment is left outstanding untouched. -/
theorem rescindLoop_append (applyOp : Resources → Option Resources)
    (l₁ l₂ : List Offer) (recovered required : Resources) :
    rescindLoop applyOp (l₁ ++ l₂) recovered required =
      (let r := rescindLoop applyOp l₁ recovered required
       if r.stopped then { r with remaining := r.remaining ++ l₂ }
       else
         let r₂ := rescindLoop applyOp l₂ r.recovered r.required
         { recovered := r₂.recovered, required := r₂.required,
           rescinded := r.rescinded ++ r₂.rescinded,
           remaining := r.remaining ++ r₂.remaining,
           stopped := r₂.stopped }) := by
  induction l₁ generalizing recovered required with
  | nil => simp [rescindLoop]
  | cons offer rest ih =>
    by_cases hskip : Resources.equiv required (required.sub offer.resources) = true
    · by_cases hstop : (rescindLoop applyOp rest recovered required).stopped = true
      · simp [rescindLoop, hskip, ih, hstop]
      · simp [rescindLoop, hskip, ih, hstop]
    · by_cases happ : (applyOp (recovered.add offer.resources)).isSome = true
      · simp [rescindLoop, hskip, happ]
      · by_cases hstop :
            (rescindLoop applyOp rest (recovered.add offer.resources)
              (required.sub offer.resources)).stopped = true
        · simp [rescindLoop, hskip, happ, ih, hstop]
        · simp [rescindLoop, hskip, happ, ih, hstop]

/-- C1: For every agent and resource operation entering admission, the
rescission loop skips any offer whose rescission would not reduce the
still-required resources, and stops as soon as the accumulated rescinded
resources let the operation apply cleanly: after the first rescinded
offer for which `applyOp` succeeds on the accumulated recovered
resources, no further offers are rescinded or removed — every offer
after it is left outstanding. -/
theorem rescission_skips_and_stops_early
    (applyOp : Resources → Option Resources) (pre post : List Offer) (offer : Offer)
    (recovered required : Resources) (r₁ : RescindResult)
    (h₁ : rescindLoop applyOp pre recovered required = r₁)
    (h₂ : r₁.stopped = false)
    (h₃ : Resources.equiv r₁.required (r₁.required.sub offer.resources) = false)
    (h₄ : (applyOp (r₁.recovered.add offer.resources)).isSome = true) :
    rescindLoop applyOp (pre ++ offer :: post) recovered required =
      { recovered := r₁.recovered.add offer.resources,
        required := r₁.required.sub offer.resources,
        rescinded := r₁.rescinded ++ [offer],
        remaining := r₁.remaining ++ post,
        stopped := true }
    ∧ ∀ (skipped : Offer) (rest : List Offer),
        Resources.equiv required (required.sub skipped.resources) = true →
        rescindLoop applyOp (skipped :: rest) recovered required =
          { rescindLoop applyOp rest recovered required with
            remaining := skipped :: (rescindLoop applyOp rest recovered required).remaining } := by
  constructor
  · rw [rescindLoop_append, h₁]
    simp [h₂, rescindLoop, h₃, h₄]
  · intro skipped rest hskip
    simp [rescindLoop, hskip]

/-- Witness for C1: with offers [A, B, C] on the agent where A + B make
the operation applicable, the loop rescinds A and B and leaves C
outstanding. -/
theorem rescission_skips_and_stops_early_witness :
    rescindLoop applyW ([offerA] ++ offerB :: [offerC]) [] [cpusRes 4] =
      { recovered := [cpusRes 4], required := [],
        rescinded := [offerA, offerB], remaining := [offerC], stopped := true } := by
  have h := rescission_skips_and_stops_early applyW [offerA] [offerC] offerB
    [] [cpusRes 4]
    { recovered := [cpusRes 2], required := [cpusRes 2],
      rescinded := [offerA], remaining := [], stopped := false }
    (by decide) (by decide) (by decide) (by decide)
  rw [h.1]
  decide

/-- C7: once admission has rescinded offers, the asynchronous apply
outcome only selects the response — failure yields Conflict carrying the
failure detail and success yields OK — while the agent's offers are the
post-rescission offers in both cases: rescinded offers stay rescinded,
no rollback is performed. -/
theorem operation_conflict_no_rollback
    (slaves : List Slave) (slaveId : SlaveID) (required : Resources)
    (applyOp : Resources → Option Resources) (msg : String) (slave : Slave)
    (h : slaves.find? (fun s => s.id == slaveId) = some slave) :
    httpOperation slaves slaveId required applyOp (.error msg)
      = (.conflict msg,
         slaves.map (fun s => if s.id == slaveId then
           { s with offers := (rescindLoop applyOp slave.offers [] required).remaining }
           else s)) ∧
    httpOperation slaves slaveId required applyOp (.ok ())
      = (.ok,
         slaves.map (fun s => if s.id == slaveId then
           { s with offers := (rescindLoop applyOp slave.offers [] required).remaining }
           else s)) := by
  constructor
  · simp [httpOperation, h]
  · simp [httpOperation, h]

/-- Witness for C7: on a concrete agent, a failed apply answers Conflict
with the failure detail and a successful apply answers OK, with the same
post-rescission offer set (offer C outstanding) in both cases. -/
theorem operation_conflict_no_rollback_witness :
    httpOperation [slaveW] "S1" [cpusRes 4] applyW (.error "insufficient") =
      (.conflict "insufficient", [{ slaveW with offers := [offerC] }]) ∧
    httpOperation [slaveW] "S1" [cpusRes 4] applyW (.ok ()) =
      (.ok, [{ slaveW with offers := [offerC] }]) := by
  have h := operation_conflict_no_rollback [slaveW] "S1" [cpusRes 4] applyW
    "insufficient" slaveW (by decide)
  refine ⟨?_, ?_⟩
  · rw [h.1]; decide
  · rw [h.2]; decide

theorem lookupMachine_cons (q : MachineID × MachineEntry)
    (l : List (MachineID × MachineEntry)) (id : MachineID) :
    lookupMachine (q :: l) id =
      if q.1 == id then some q.2 else lookupMachine l id := by
  by_cases h : q.1 == id
  · simp [lookupMachine, List.find?_cons_of_pos, h]
  · simp [lookupMachine, List.find?_cons_of_neg, h]

theorem mapMachine_cons (q : MachineID × MachineEntry)
    (l : List (MachineID × MachineEntry)) (id : MachineID)
    (f : MachineEntry → MachineEntry) :
    mapMachine (q :: l) id f =
      (if q.1 == id then (q.1, f q.2) else q) :: mapMachine l id f := rfl

theorem lookupMachine_mapMachine_self (ms : List (MachineID × MachineEntry))
    (id : MachineID) (f : MachineEntry → MachineEntry) :
    lookupMachine (mapMachine ms id f) id = (lookupMachine ms id).map f := by
  induction ms with
  | nil => rfl
  | cons p rest ih =>
    rw [mapMachine_cons, lookupMachine_cons, lookupMachine_cons]
    by_cases h : p.1 == id
    · simp [h]
    · simp [h, ih]

theorem lookupMachine_mapMachine_ne (ms : List (MachineID × MachineEntry))
    (id id' : MachineID) (f : MachineEntry → MachineEntry) (h : id' ≠ id) :
    lookupMachine (mapMachine ms id f) id' = lookupMachine ms id' := by
  induction ms with
  | nil => rfl
  | cons p rest ih =>
    rw [mapMachine_cons, lookupMachine_cons, lookupMachine_cons]
    by_cases hp : p.1 == id
    · have hp' : ¬(p.1 == id') = true := by
        simp only [beq_iff_eq] at hp ⊢
        exact fun hx => h (hx ▸ hp ▸ rfl)
      simp [hp, hp', ih]
    · by_cases hq : p.1 == id'
      · simp [hp, hq]
      · simp [hp, hq, ih]

theorem lookupMachine_append_self (ms : List (MachineID × MachineEntry))
    (id : MachineID) (e : MachineEntry) (h : lookupMachine ms id = none) :
    lookupMachine (ms ++ [(id, e)]) id = some e := by
  induction ms with
  | nil => simp [lookupMachine]
  | cons p rest ih =>
    rw [lookupMachine_cons] at h
    rw [List.cons_append, lookupMachine_cons]
    by_cases hp : p.1 == id
    · simp [hp] at h
    · simp only [hp, if_false, Bool.false_eq_true] at h ⊢
      exact ih h

theorem lookupMachine_append_ne (ms : List (MachineID × MachineEntry))
    (id id' : MachineID) (e : MachineEntry) (h : id' ≠ id) :
    lookupMachine (ms ++ [(id, e)]) id' = lookupMachine ms id' := by
  induction ms with
  | nil =>
    have hne : ¬(id == id') = true := by
      simp only [beq_iff_eq]
      exact fun hx => h hx.symm
    simp [lookupMachine, List.find?, hne]
  | cons p rest ih =>
    rw [List.cons_append, lookupMachine_cons, lookupMachine_cons]
    by_cases hp : p.1 == id'
    · simp [hp]
    · simp only [hp, if_false, Bool.false_eq_true]
      exact ih

theorem containsMachine_eq (ms : List (MachineID × MachineEntry)) (id : MachineID) :
    containsMachine ms id = (lookupMachine ms id).isSome := by
  simp [containsMachine, lookupMachine]

theorem checkMachines_some_of_invalid (ms : List (MachineID × MachineEntry))
    (expected : Mode) (msg : String) (ids : List MachineID)
    (h : ∃ id ∈ ids, validMachine ms expected id = false) :
    ∃ err, checkMachines ms expected msg ids = some err := by
  induction ids with
  | nil => simp at h
  | cons x rest ih =>
    obtain ⟨id, hid, hbad⟩ := h
    rcases List.mem_cons.mp hid with heq | hmem
    · subst heq
      unfold validMachine at hbad
      cases hl : lookupMachine ms id with
      | none =>
        exact ⟨"Machine is not part of a maintenance schedule",
          by simp [checkMachines, hl]⟩
      | some e =>
        rw [hl] at hbad
        have : ¬ e.mode = expected := by simpa using hbad
        exact ⟨msg, by simp [checkMachines, hl, this]⟩
    · cases hl : lookupMachine ms x with
      | none =>
        exact ⟨"Machine is not part of a maintenance schedule",
          by simp [checkMachines, hl]⟩
      | some e =>
        by_cases hm : e.mode = expected
        · obtain ⟨err, herr⟩ := ih ⟨id, hmem, hbad⟩
          exact ⟨err, by simp [checkMachines, hl, hm, herr]⟩
        · exact ⟨msg, by simp [checkMachines, hl, hm]⟩

/-- C3: machine mode transitions follow the cycle UP, DRAINING, DOWN, UP.
A machine-down request listing any machine that is unknown or not in
DRAINING mode is rejected as a bad request with no state change, and a
machine-up request listing any machine that is unknown or not in DOWN
mode is rejected likewise; hence no request moves a machine DOWN to
DRAINING or UP to DOWN directly. -/
theorem mode_cycle_rejections (s : MaintState) (idsDown idsUp : List MachineID)
    (h : ∃ id ∈ idsDown, validMachine s.machines .draining id = false)
    (h' : ∃ id ∈ idsUp, validMachine s.machines .down id = false) :
    (∃ err, machineDown s idsDown = some (.badRequest err, s)) ∧
    (∃ err, machineUp s idsUp = (.badRequest err, s)) := by
  obtain ⟨e₁, he₁⟩ := checkMachines_some_of_invalid s.machines .draining
    "Machine is not in DRAINING mode and cannot be brought down" idsDown h
  obtain ⟨e₂, he₂⟩ := checkMachines_some_of_invalid s.machines .down
    "Machine is not in DOWN mode and cannot be brought up" idsUp h'
  exact ⟨⟨e₁, by simp [machineDown, he₁]⟩, ⟨e₂, by simp [machineUp, he₂]⟩⟩

/-- Witness for C3: with machine M1 in UP mode, both bringing it down
(UP to DOWN directly) and bringing it up are rejected with the state
unchanged. -/
theorem mode_cycle_rejections_witness :
    (∃ err, machineDown maintW ["M1"] = some (.badRequest err, maintW)) ∧
    (∃ err, machineUp maintW ["M1"] = (.badRequest err, maintW)) :=
  mode_cycle_rejections maintW ["M1"] ["M1"]
    ⟨"M1", by decide, by decide⟩ ⟨"M1", by decide, by decide⟩

theorem lookupMachine_setMachineInfo_self (ms : List (MachineID × MachineEntry))
    (id : MachineID) (m : Mode) (u : Option Unavailability) :
    ∃ e, lookupMachine (setMachineInfo ms id m u) id = some e ∧
      e.mode = m ∧ e.unavailability = u := by
  unfold setMachineInfo
  rw [containsMachine_eq]
  cases hl : lookupMachine ms id with
  | none =>
    refine ⟨{ mode := m, unavailability := u, slaves := [] }, ?_, rfl, rfl⟩
    simp only [hl, Option.isSome_none, Bool.false_eq_true, if_false]
    exact lookupMachine_append_self ms id _ hl
  | some e₀ =>
    refine ⟨{ e₀ with mode := m, unavailability := u }, ?_, rfl, rfl⟩
    simp only [hl, Option.isSome_some, if_true]
    rw [lookupMachine_mapMachine_self, hl]
    rfl

theorem lookupMachine_setMachineInfo_ne (ms : List (MachineID × MachineEntry))
    (id id' : MachineID) (m : Mode) (u : Option Unavailability) (h : id' ≠ id) :
    lookupMachine (setMachineInfo ms id m u) id' = lookupMachine ms id' := by
  unfold setMachineInfo
  by_cases hc : containsMachine ms id = true
  · rw [if_pos hc]
    exact lookupMachine_mapMachine_ne ms id id' _ h
  · rw [if_neg hc]
    exact lookupMachine_append_ne ms id id' _ h

theorem lookupMachine_setMode_self (ms : List (MachineID × MachineEntry))
    (id : MachineID) (m : Mode) :
    ∃ e, lookupMachine (setMode ms id m) id = some e ∧ e.mode = m := by
  unfold setMode
  rw [containsMachine_eq]
  cases hl : lookupMachine ms id with
  | none =>
    refine ⟨{ mode := m, unavailability := none, slaves := [] }, ?_, rfl⟩
    simp only [hl, Option.isSome_none, Bool.false_eq_true, if_false]
    exact lookupMachine_append_self ms id _ hl
  | some e₀ =>
    refine ⟨{ e₀ with mode := m }, ?_, rfl⟩
    simp only [hl, Option.isSome_some, if_true]
    rw [lookupMachine_mapMachine_self, hl]
    rfl

theorem lookupMachine_setMode_ne (ms : List (MachineID × MachineEntry))
    (id id' : MachineID) (m : Mode) (h : id' ≠ id) :
    lookupMachine (setMode ms id m) id' = lookupMachine ms id' := by
  unfold setMode
  by_cases hc : containsMachine ms id = true
  · rw [if_pos hc]
    exact lookupMachine_mapMachine_ne ms id id' _ h
  · rw [if_neg hc]
    exact lookupMachine_append_ne ms id id' _ h

theorem lookupMachine_updateUnavailability_self (ms : List (MachineID × MachineEntry))
    (id : MachineID) (u : Option Unavailability) :
    lookupMachine (updateUnavailability ms id u) id =
      some (match lookupMachine ms id with
        | some e => { e with unavailability := u }
        | none => { mode := .up, unavailability := u, slaves := [] }) := by
  unfold updateUnavailability
  rw [containsMachine_eq]
  cases hl : lookupMachine ms id with
  | none =>
    simp only [hl, Option.isSome_none, Bool.false_eq_true, if_false]
    exact lookupMachine_append_self ms id _ hl
  | some e₀ =>
    simp only [hl, Option.isSome_some, if_true]
    rw [lookupMachine_mapMachine_self, hl]
    rfl

theorem lookupMachine_updateUnavailability_ne (ms : List (MachineID × MachineEntry))
    (id id' : MachineID) (u : Option Unavailability) (h : id' ≠ id) :
    lookupMachine (updateUnavailability ms id u) id' = lookupMachine ms id' := by
  unfold updateUnavailability
  by_cases hc : containsMachine ms id = true
  · rw [if_pos hc]
    exact lookupMachine_mapMachine_ne ms id id' _ h
  · rw [if_neg hc]
    exact lookupMachine_append_ne ms id id' _ h

/-- Folding `setMachineInfo · · m u` preserves the property of holding
mode `m` and unavailability `u`. -/
theorem foldl_setMachineInfo_preserves (ids : List MachineID)
    (ms : List (MachineID × MachineEntry)) (id : MachineID)
    (m : Mode) (u : Option Unavailability)
    (h : ∃ e, lookupMachine ms id = some e ∧ e.mode = m ∧ e.unavailability = u) :
    ∃ e, lookupMachine
        (ids.foldl (fun a i => setMachineInfo a i m u) ms) id = some e ∧
      e.mode = m ∧ e.unavailability = u := by
  induction ids generalizing ms with
  | nil => exact h
  | cons i rest ih =>
    by_cases hi : id = i
    · subst hi
      exact ih _ (lookupMachine_setMachineInfo_self ms id m u)
    · refine ih _ ?_
      rw [lookupMachine_setMachineInfo_ne ms i id m u hi]
      exact h

theorem foldl_setMachineInfo_mem (ids : List MachineID)
    (ms : List (MachineID × MachineEntry)) (id : MachineID)
    (m : Mode) (u : Option Unavailability) (h : id ∈ ids) :
    ∃ e, lookupMachine
        (ids.foldl (fun a i => setMachineInfo a i m u) ms) id = some e ∧
      e.mode = m ∧ e.unavailability = u := by
  induction ids generalizing ms with
  | nil => cases h
  | cons i rest ih =>
    rcases List.mem_cons.mp h with heq | hmem
    · subst heq
      exact foldl_setMachineInfo_preserves rest _ id m u
        (lookupMachine_setMachineInfo_self ms id m u)
    · exact ih (setMachineInfo ms i m u) hmem

theorem pruneWindow_some (updated : List MachineID) (w w' : Window)
    (h : pruneWindow updated w = some w') :
    w'.machineIds ≠ [] ∧ ∀ id ∈ updated, id ∉ w'.machineIds := by
  simp only [pruneWindow] at h
  by_cases he : (w.machineIds.filter fun id => !(updated.contains id)).isEmpty = true
  · rw [he] at h
    simp at h
  · have he' : (w.machineIds.filter fun id => !(updated.contains id)).isEmpty = false := by
      simpa using he
    rw [he'] at h
    simp only [Bool.false_eq_true, if_false, Option.some.injEq] at h
    subst h
    constructor
    · intro hnil
      have hnil' : (w.machineIds.filter fun id => !(updated.contains id)) = [] := hnil
      rw [hnil'] at he'
      simp at he'
    · intro id hid hmem
      have hf := (List.mem_filter.mp hmem).2
      have : updated.contains id = false := by simpa using hf
      have : id ∉ updated := by simpa using this
      exact this hid

/-- C5: after a machine-up request succeeds, each targeted machine is UP
with its unavailability cleared, no stored window still references a
targeted machine, no stored window is empty, and no stored schedule is
empty. -/
theorem machine_up_clears_and_prunes (s : MaintState) (ids : List MachineID)
    (s' : MaintState) (h : machineUp s ids = (.ok, s')) :
    (∀ id ∈ ids, ∃ e, lookupMachine s'.machines id = some e ∧
        e.mode = .up ∧ e.unavailability = none) ∧
    (∀ sch ∈ s'.schedules, sch ≠ [] ∧ ∀ w ∈ sch,
        w.machineIds ≠ [] ∧ ∀ id ∈ ids, id ∉ w.machineIds) := by
  unfold machineUp at h
  cases hc : checkMachines s.machines .down
      "Machine is not in DOWN mode and cannot be brought up" ids with
  | some err => rw [hc] at h; cases h
  | none =>
    rw [hc] at h
    have hs : s' = { s with
        machines := ids.foldl (fun a i => setMachineInfo a i .up none) s.machines,
        schedules := (s.schedules.map
          (fun sch => sch.filterMap (pruneWindow ids))).filter
            (fun sch => !sch.isEmpty) } := by
      cases h
      rfl
    subst hs
    constructor
    · intro id hid
      exact foldl_setMachineInfo_mem ids s.machines id .up none hid
    · intro sch hsch
      have hsch' := List.mem_filter.mp hsch
      obtain ⟨sch₀, _, hmap⟩ := List.mem_map.mp hsch'.1
      constructor
      · intro hnil
        rw [hnil] at hsch'
        simp at hsch'
      · intro w hw
        subst hmap
        obtain ⟨w₀, _, hpw⟩ := List.mem_filterMap.mp hw
        exact pruneWindow_some ids w₀ w hpw

/-- Witness for C5: bringing machine M1 up marks it UP with cleared
unavailability and prunes it from the stored schedule, which keeps its
nonempty window for M2. -/
theorem machine_up_clears_and_prunes_witness :
    (∃ e, lookupMachine (machineUp maintDownW ["M1"]).2.machines "M1" = some e ∧
      e.mode = .up ∧ e.unavailability = none) ∧
    ((machineUp maintDownW ["M1"]).2.schedules ≠ [] →
      ∀ sch ∈ (machineUp maintDownW ["M1"]).2.schedules, sch ≠ []) := by
  have h := machine_up_clears_and_prunes maintDownW ["M1"]
    (machineUp maintDownW ["M1"]).2 (by decide)
  exact ⟨h.1 "M1" (by decide), fun _ sch hsch => (h.2 sch hsch).1⟩

theorem lookupMachine_mapEntriesKeyed (ms : List (MachineID × MachineEntry))
    (f : MachineID → MachineEntry → MachineEntry) (id : MachineID) :
    lookupMachine (mapEntriesKeyed ms f) id = (lookupMachine ms id).map (f id) := by
  induction ms with
  | nil => rfl
  | cons p rest ih =>
    rw [show mapEntriesKeyed (p :: rest) f
        = (p.1, f p.1 p.2) :: mapEntriesKeyed rest f from rfl,
      lookupMachine_cons, lookupMachine_cons]
    by_cases hp : p.1 == id
    · have h : p.1 = id := beq_iff_eq.mp hp
      subst h
      simp
    · simp [hp, ih]

theorem foldl_setMode_preserves (ids : List MachineID)
    (ms : List (MachineID × MachineEntry)) (id : MachineID) (m : Mode)
    (h : ∃ e, lookupMachine ms id = some e ∧ e.mode = m) :
    ∃ e, lookupMachine (ids.foldl (fun a i => setMode a i m) ms) id = some e ∧
      e.mode = m := by
  induction ids generalizing ms with
  | nil => exact h
  | cons i rest ih =>
    by_cases hi : id = i
    · subst hi
      exact ih _ (lookupMachine_setMode_self ms id m)
    · refine ih _ ?_
      rw [lookupMachine_setMode_ne ms i id m hi]
      exact h

theorem foldl_setMode_mem (ids : List MachineID)
    (ms : List (MachineID × MachineEntry)) (id : MachineID) (m : Mode)
    (h : id ∈ ids) :
    ∃ e, lookupMachine (ids.foldl (fun a i => setMode a i m) ms) id = some e ∧
      e.mode = m := by
  induction ids generalizing ms with
  | nil => cases h
  | cons i rest ih =>
    rcases List.mem_cons.mp h with heq | hmem
    · subst heq
      exact foldl_setMode_preserves rest _ id m (lookupMachine_setMode_self ms id m)
    · exact ih (setMode ms i m) hmem

theorem shutdownSlaves_spec (slist : List SlaveID) (s t : MaintState)
    (h : shutdownSlaves s slist = some t) :
    (∀ sl, shutdownDone s sl → shutdownDone t sl) ∧
    (∀ sl ∈ slist, shutdownDone t sl) ∧
    (∀ id e₀, lookupMachine s.machines id = some e₀ →
      ∃ e, lookupMachine t.machines id = some e ∧
        ∀ sl ∈ e₀.slaves, sl ∈ e.slaves ∨ shutdownDone t sl) := by
  induction slist generalizing s with
  | nil =>
    have ht : s = t := by
      simpa [shutdownSlaves] using h
    subst ht
    refine ⟨fun sl hsl => hsl, by simp, ?_⟩
    intro id e₀ hl
    exact ⟨e₀, hl, fun sl hsl => Or.inl hsl⟩
  | cons x rest ih =>
    unfold shutdownSlaves at h
    by_cases hx : s.registered.contains x = true
    · rw [if_pos hx] at h
      obtain ⟨p₁, p₂, p₃⟩ := ih _ h
      have hstep : ∀ sl, shutdownDone s sl →
          shutdownDone
            (removeSlave { s with sentShutdowns := s.sentShutdowns ++ [x] } x) sl := by
        intro sl hsl
        refine ⟨List.mem_append.mpr (Or.inl hsl.1), ?_⟩
        intro hmem
        exact hsl.2 (List.mem_filter.mp hmem).1
      have hdonex : shutdownDone
          (removeSlave { s with sentShutdowns := s.sentShutdowns ++ [x] } x) x := by
        refine ⟨List.mem_append.mpr (Or.inr (List.mem_singleton.mpr rfl)), ?_⟩
        intro hmem
        have := (List.mem_filter.mp hmem).2
        simp at this
      refine ⟨fun sl hsl => p₁ sl (hstep sl hsl), ?_, ?_⟩
      · intro sl hsl
        rcases List.mem_cons.mp hsl with heq | hmem
        · subst heq
          exact p₁ sl hdonex
        · exact p₂ sl hmem
      · intro id e₀ hl
        have hl₁ : lookupMachine
            (removeSlave { s with sentShutdowns := s.sentShutdowns ++ [x] } x).machines
              id = some { e₀ with slaves := e₀.slaves.filter (fun y => !(y == x)) } := by
          simp only [removeSlave]
          rw [lookupMachine_mapEntriesKeyed]
          simp only [hl]
          rfl
        obtain ⟨e, he, hsub⟩ := p₃ id _ hl₁
        refine ⟨e, he, ?_⟩
        intro sl hsl
        by_cases hsx : sl = x
        · subst hsx
          exact Or.inr (p₁ sl hdonex)
        · have : sl ∈ e₀.slaves.filter (fun y => !(y == x)) :=
            List.mem_filter.mpr ⟨hsl, by simpa using hsx⟩
          exact hsub sl this
    · rw [if_neg hx] at h
      cases h

theorem downFanout_spec (mids : List MachineID) (s t : MaintState)
    (h : downFanout s mids = some t) :
    (∀ sl, shutdownDone s sl → shutdownDone t sl) ∧
    (∀ id e₀, lookupMachine s.machines id = some e₀ →
      ∃ e, lookupMachine t.machines id = some e ∧
        ∀ sl ∈ e₀.slaves, sl ∈ e.slaves ∨ shutdownDone t sl) ∧
    (∀ id ∈ mids, ∀ e₀, lookupMachine s.machines id = some e₀ →
      ∀ sl ∈ e₀.slaves, shutdownDone t sl) := by
  induction mids generalizing s with
  | nil =>
    have ht : s = t := by
      simpa [downFanout] using h
    subst ht
    refine ⟨fun sl hsl => hsl, ?_, by simp⟩
    intro id e₀ hl
    exact ⟨e₀, hl, fun sl hsl => Or.inl hsl⟩
  | cons id rest ih =>
    unfold downFanout at h
    cases hm : lookupMachine s.machines id with
    | none =>
      simp only [hm] at h
      obtain ⟨p₁, p₂, p₃⟩ := ih _ h
      refine ⟨p₁, p₂, ?_⟩
      intro id' hid' e₀ hl
      rcases List.mem_cons.mp hid' with heq | hmem
      · subst heq
        rw [hm] at hl
        cases hl
      · exact p₃ id' hmem e₀ hl
    | some e =>
      simp only [hm] at h
      cases hs : shutdownSlaves s e.slaves with
      | none => simp only [hs] at h; cases h
      | some s₁ =>
        simp only [hs] at h
        obtain ⟨q₁, q₂, q₃⟩ := shutdownSlaves_spec e.slaves s s₁ hs
        obtain ⟨p₁, p₂, p₃⟩ := ih _ h
        refine ⟨fun sl hsl => p₁ sl (q₁ sl hsl), ?_, ?_⟩
        · intro id' e₀ hl
          obtain ⟨e₁, he₁, hsub₁⟩ := q₃ id' e₀ hl
          obtain ⟨e₂, he₂, hsub₂⟩ := p₂ id' e₁ he₁
          refine ⟨e₂, he₂, ?_⟩
          intro sl hsl
          rcases hsub₁ sl hsl with hin | hdone
          · exact hsub₂ sl hin
          · exact Or.inr (p₁ sl hdone)
        · intro id' hid' e₀ hl sl hsl
          rcases List.mem_cons.mp hid' with heq | hmem
          · subst heq
            rw [hm] at hl
            cases hl
            exact p₁ sl (q₂ sl hsl)
          · obtain ⟨e₁, he₁, hsub₁⟩ := q₃ id' e₀ hl
            rcases hsub₁ sl hsl with hin | hdone
            · exact p₃ id' hmem e₁ he₁ sl hin
            · exact p₁ sl hdone

/-- C4: after a machine-down request succeeds, every agent that was
located on a targeted machine has been sent a shutdown message and has
been removed from the registered-agent store (without waiting for an
acknowledgement), and every targeted machine is in DOWN mode. -/
theorem machine_down_removes_agents (s : MaintState) (ids : List MachineID)
    (s' : MaintState) (h : machineDown s ids = some (.ok, s')) :
    (∀ id ∈ ids, ∃ e, lookupMachine s'.machines id = some e ∧ e.mode = .down) ∧
    (∀ id ∈ ids, ∀ e₀, lookupMachine s.machines id = some e₀ →
      ∀ sl ∈ e₀.slaves, sl ∈ s'.sentShutdowns ∧ sl ∉ s'.registered) := by
  unfold machineDown at h
  cases hc : checkMachines s.machines .draining
      "Machine is not in DRAINING mode and cannot be brought down" ids with
  | some err => rw [hc] at h; simp at h
  | none =>
    rw [hc] at h
    cases hf : downFanout s ids with
    | none => rw [hf] at h; cases h
    | some t =>
      rw [hf] at h
      have hinj := Option.some.inj h
      have hs : ({ t with
          machines := ids.foldl (fun a i => setMode a i .down) t.machines } :
            MaintState) = s' := congrArg Prod.snd hinj
      obtain ⟨p₁, p₂, p₃⟩ := downFanout_spec ids s t hf
      subst hs
      constructor
      · intro id hid
        exact foldl_setMode_mem ids t.machines id .down hid
      · intro id hid e₀ hl sl hsl
        exact p₃ id hid e₀ hl sl hsl

/-- Witness for C4: bringing machine M2 down shuts down and removes its
agent SL1 and marks M2 DOWN. -/
theorem machine_down_removes_agents_witness :
    (∃ e, lookupMachine
        { machines :=
            [("M2", { mode := .down,
                      unavailability := some { start := 3, duration := none },
                      slaves := [] })],
          schedules := [], registered := [],
          sentShutdowns := [slaveU] : MaintState }.machines "M2" = some e ∧
      e.mode = .down) ∧
    (slaveU ∈ ([slaveU] : List SlaveID) ∧ slaveU ∉ ([] : List SlaveID)) := by
  have h := machine_down_removes_agents maintDrainW ["M2"]
    { machines :=
        [("M2", { mode := .down,
                  unavailability := some { start := 3, duration := none },
                  slaves := [] })],
      schedules := [], registered := [], sentShutdowns := [slaveU] }
    (by decide)
  refine ⟨h.1 "M2" (by decide), ?_⟩
  exact h.2 "M2" (by decide)
    { mode := .draining, unavailability := some { start := 3, duration := none },
      slaves := [slaveU] } (by decide) slaveU (by decide)

theorem windowStep_self (w : Window) (ms : List (MachineID × MachineEntry))
    (id : MachineID) : drainingAt w (windowStep w ms id) id := by
  obtain ⟨e₁, he₁, hm₁, _⟩ := lookupMachine_setMachineInfo_self ms id .draining none
  refine ⟨{ e₁ with unavailability := some w.unavailability }, ?_, hm₁, rfl⟩
  unfold windowStep
  rw [lookupMachine_updateUnavailability_self]
  simp only [he₁]

theorem windowStep_ne (w : Window) (ms : List (MachineID × MachineEntry))
    (id id' : MachineID) (h : id' ≠ id) :
    lookupMachine (windowStep w ms id) id' = lookupMachine ms id' := by
  unfold windowStep
  rw [lookupMachine_updateUnavailability_ne _ _ _ _ h,
    lookupMachine_setMachineInfo_ne _ _ _ _ _ h]

theorem foldl_windowStep_preserves (w : Window) (ids : List MachineID)
    (ms : List (MachineID × MachineEntry)) (id : MachineID)
    (h : drainingAt w ms id) :
    drainingAt w (ids.foldl (windowStep w) ms) id := by
  induction ids generalizing ms with
  | nil => exact h
  | cons i rest ih =>
    by_cases hi : id = i
    · subst hi
      exact ih _ (windowStep_self w ms id)
    · refine ih _ ?_
      obtain ⟨e, he, hm, hu⟩ := h
      exact ⟨e, by rw [windowStep_ne w ms i id hi]; exact he, hm, hu⟩

theorem foldl_windowStep_mem (w : Window) (ids : List MachineID)
    (ms : List (MachineID × MachineEntry)) (id : MachineID) (h : id ∈ ids) :
    drainingAt w (ids.foldl (windowStep w) ms) id := by
  induction ids generalizing ms with
  | nil => cases h
  | cons i rest ih =>
    rcases List.mem_cons.mp h with heq | hmem
    · subst heq
      exact foldl_windowStep_preserves w rest _ id (windowStep_self w ms id)
    · exact ih (windowStep w ms i) hmem

theorem foldl_windowStep_not_mem (w : Window) (ids : List MachineID)
    (ms : List (MachineID × MachineEntry)) (id : MachineID) (h : id ∉ ids) :
    lookupMachine (ids.foldl (windowStep w) ms) id = lookupMachine ms id := by
  induction ids generalizing ms with
  | nil => rfl
  | cons i rest ih =>
    have hi : id ≠ i := fun hx => h (hx ▸ List.mem_cons_self i rest)
    have hrest : id ∉ rest := fun hx => h (List.mem_cons_of_mem i hx)
    rw [List.foldl_cons, ih (windowStep w ms i) hrest, windowStep_ne w ms i id hi]

theorem schedFold_draining (sched : Schedule)
    (ms : List (MachineID × MachineEntry)) (id : MachineID) (w : Window)
    (huniq : ∀ w' ∈ sched, id ∈ w'.machineIds → w' = w)
    (h : drainingAt w ms id ∨ ∃ w' ∈ sched, id ∈ w'.machineIds) :
    drainingAt w
      (sched.foldl (fun ms w' => w'.machineIds.foldl (windowStep w') ms) ms) id := by
  induction sched generalizing ms with
  | nil =>
    rcases h with hP | ⟨w', hw', _⟩
    · exact hP
    · cases hw'
  | cons w₀ rest ih =>
    rw [List.foldl_cons]
    by_cases hmem : id ∈ w₀.machineIds
    · have hw₀ : w₀ = w := huniq w₀ (List.mem_cons_self w₀ rest) hmem
      subst hw₀
      exact ih _ (fun w' hw' hm => huniq w' (List.mem_cons_of_mem w₀ hw') hm)
        (Or.inl (foldl_windowStep_mem w₀ w₀.machineIds ms id hmem))
    · have hpres : lookupMachine (w₀.machineIds.foldl (windowStep w₀) ms) id
          = lookupMachine ms id :=
        foldl_windowStep_not_mem w₀ w₀.machineIds ms id hmem
      rcases h with hP | ⟨w', hw', hm'⟩
      · refine ih _ (fun w' hw' hm => huniq w' (List.mem_cons_of_mem w₀ hw') hm)
          (Or.inl ?_)
        obtain ⟨e, he, hmo, hu⟩ := hP
        exact ⟨e, hpres ▸ he, hmo, hu⟩
      · rcases List.mem_cons.mp hw' with heq | hrest
        · subst heq
          exact absurd hm' hmem
        · exact ih _ (fun w'' hw'' hm => huniq w'' (List.mem_cons_of_mem w₀ hw'') hm)
            (Or.inr ⟨w', hrest, hm'⟩)

theorem schedFold_not_mem (sched : Schedule)
    (ms : List (MachineID × MachineEntry)) (id : MachineID)
    (h : ∀ w ∈ sched, id ∉ w.machineIds) :
    lookupMachine
      (sched.foldl (fun ms w' => w'.machineIds.foldl (windowStep w') ms) ms) id =
      lookupMachine ms id := by
  induction sched generalizing ms with
  | nil => rfl
  | cons w₀ rest ih =>
    rw [List.foldl_cons, ih _ (fun w hw => h w (List.mem_cons_of_mem w₀ hw)),
      foldl_windowStep_not_mem w₀ w₀.machineIds ms id
        (h w₀ (List.mem_cons_self w₀ rest))]

theorem mem_insertUnav_key (m : List (MachineID × Unavailability))
    (id : MachineID) (u : Unavailability) (p : MachineID × Unavailability)
    (h : p ∈ insertUnav m id u) :
    p.1 = id ∨ ∃ q ∈ m, q.1 = p.1 := by
  unfold insertUnav at h
  by_cases hc : ((m.find? (fun p => p.1 == id)).isSome : Bool) = true
  · rw [if_pos hc] at h
    obtain ⟨q, hq, hpq⟩ := List.mem_map.mp h
    by_cases hqi : q.1 == id
    · rw [if_pos hqi] at hpq
      exact Or.inr ⟨q, hq, by rw [← hpq]⟩
    · rw [if_neg hqi] at hpq
      exact Or.inr ⟨q, hq, by rw [← hpq]⟩
  · rw [if_neg hc] at h
    rcases List.mem_append.mp h with hm | hone
    · exact Or.inr ⟨p, hm, rfl⟩
    · rcases List.mem_singleton.mp hone with hp
      exact Or.inl (by rw [hp])

theorem mem_foldl_insertUnav_key (ids : List MachineID)
    (m : List (MachineID × Unavailability)) (u : Unavailability)
    (p : MachineID × Unavailability)
    (h : p ∈ ids.foldl (fun m i => insertUnav m i u) m) :
    p.1 ∈ ids ∨ ∃ q ∈ m, q.1 = p.1 := by
  induction ids generalizing m with
  | nil => exact Or.inr ⟨p, h, rfl⟩
  | cons i rest ih =>
    rcases ih _ h with hr | ⟨q, hq, hqp⟩
    · exact Or.inl (List.mem_cons_of_mem i hr)
    · rcases mem_insertUnav_key m i u q hq with hqi | ⟨q', hq', hqq⟩
      · exact Or.inl (hqp ▸ hqi ▸ List.mem_cons_self i rest)
      · exact Or.inr ⟨q', hq', hqq.trans hqp⟩

theorem mem_updatedMap_key (sched : Schedule) (p : MachineID × Unavailability)
    (h : p ∈ updatedMap sched) :
    ∃ w ∈ sched, p.1 ∈ w.machineIds := by
  unfold updatedMap at h
  suffices hgen : ∀ (rest : Schedule) (m : List (MachineID × Unavailability)),
      p ∈ rest.foldl
        (fun m w => w.machineIds.foldl (fun m id => insertUnav m id w.unavailability) m) m →
      (∃ w ∈ rest, p.1 ∈ w.machineIds) ∨ ∃ q ∈ m, q.1 = p.1 by
    rcases hgen sched [] h with hr | ⟨q, hq, _⟩
    · exact hr
    · cases hq
  intro rest
  induction rest with
  | nil => exact fun m hm => Or.inr ⟨p, hm, rfl⟩
  | cons w₀ rest' ih =>
    intro m hm
    rcases ih _ hm with ⟨w, hw, hp⟩ | ⟨q, hq, hqp⟩
    · exact Or.inl ⟨w, List.mem_cons_of_mem w₀ hw, hp⟩
    · rcases mem_foldl_insertUnav_key w₀.machineIds m w₀.unavailability q hq with
        hin | ⟨q', hq', hqq⟩
      · exact Or.inl ⟨w₀, List.mem_cons_self w₀ rest', hqp ▸ hin⟩
      · exact Or.inr ⟨q', hq', hqq.trans hqp⟩

theorem lookupUnav_updatedMap_none (sched : Schedule) (id : MachineID)
    (h : ∀ w ∈ sched, id ∉ w.machineIds) :
    lookupUnav (updatedMap sched) id = none := by
  cases hl : lookupUnav (updatedMap sched) id with
  | none => rfl
  | some u =>
    unfold lookupUnav at hl
    cases hf : (updatedMap sched).find? (fun p => p.1 == id) with
    | none => rw [hf] at hl; cases hl
    | some p =>
      have hmem := List.mem_of_find?_eq_some hf
      have hkey : p.1 = id := by
        have := List.find?_some hf
        exact beq_iff_eq.mp this
      obtain ⟨w, hw, hp⟩ := mem_updatedMap_key sched p hmem
      exact absurd (hkey ▸ hp) (h w hw)

/-- C2: after a maintenance schedule update whose persistence succeeds,
the in-memory change is a diff: every machine named in a window of the
new schedule is DRAINING with that window's unavailability; every
machine known before but absent from the new schedule is UP with its
unavailability cleared; and the stored schedule list is exactly the new
schedule.  (The hypothesis that a machine belongs to at most one window
reflects the schedule validation performed before persistence.) -/
theorem schedule_update_is_diff (s : MaintState) (sched : Schedule)
    (huniq : ∀ w ∈ sched, ∀ w' ∈ sched, ∀ id ∈ w.machineIds,
      id ∈ w'.machineIds → w' = w) :
    (∀ w ∈ sched, ∀ id ∈ w.machineIds,
      ∃ e, lookupMachine (updateScheduleApply s sched).machines id = some e ∧
        e.mode = .draining ∧ e.unavailability = some w.unavailability) ∧
    (∀ id e₀, lookupMachine s.machines id = some e₀ →
      (∀ w ∈ sched, id ∉ w.machineIds) →
      ∃ e, lookupMachine (updateScheduleApply s sched).machines id = some e ∧
        e.mode = .up ∧ e.unavailability = none) ∧
    (updateScheduleApply s sched).schedules = [sched] := by
  refine ⟨?_, ?_, rfl⟩
  · intro w hw id hid
    exact schedFold_draining sched _ id w
      (fun w' hw' hm => huniq w hw w' hw' id hid hm)
      (Or.inr ⟨w, hw, hid⟩)
  · intro id e₀ h₀ hnot
    have h₂ : lookupMachine (updateScheduleApply s sched).machines id =
        lookupMachine (mapEntriesKeyed s.machines (fun id e =>
          match lookupUnav (updatedMap sched) id with
          | some u => { e with unavailability := some u }
          | none => { e with mode := .up, unavailability := none })) id :=
      schedFold_not_mem sched _ id hnot
    rw [h₂, lookupMachine_mapEntriesKeyed, h₀]
    simp only [Option.map_some']
    rw [lookupUnav_updatedMap_none sched id hnot]
    exact ⟨_, rfl, rfl, rfl⟩

/-- Witness for C2: with current schedule covering M1 and M2 (both
DRAINING) and a new schedule covering M2 and M3, after the update M2 and
M3 are DRAINING with the new unavailability, M1 is UP with cleared
unavailability, and the stored schedules are exactly the new one. -/
theorem schedule_update_is_diff_witness :
    (∃ e, lookupMachine (updateScheduleApply maintSchedW schedNewW).machines "M2"
        = some e ∧ e.mode = .draining ∧ e.unavailability = some unavW₂) ∧
    (∃ e, lookupMachine (updateScheduleApply maintSchedW schedNewW).machines "M3"
        = some e ∧ e.mode = .draining ∧ e.unavailability = some unavW₂) ∧
    (∃ e, lookupMachine (updateScheduleApply maintSchedW schedNewW).machines "M1"
        = some e ∧ e.mode = .up ∧ e.unavailability = none) ∧
    (updateScheduleApply maintSchedW schedNewW).schedules = [schedNewW] := by
  have h := schedule_update_is_diff maintSchedW schedNewW (by decide)
  refine ⟨?_, ?_, ?_, h.2.2⟩
  · exact h.1 { machineIds := ["M2", "M3"], unavailability := unavW₂ }
      (by decide) "M2" (by decide)
  · exact h.1 { machineIds := ["M2", "M3"], unavailability := unavW₂ }
      (by decide) "M3" (by decide)
  · exact h.2.1 "M1"
      { mode := .draining, unavailability := some unavW₁, slaves := [] }
      (by decide) (by decide)

/-- C6: every validated non-SUBSCRIBE scheduler call referencing an
unregistered framework is answered with a client error (bad request) and
leaves the master state unchanged; a call referencing a registered but
disconnected framework is answered Forbidden, also with no state
change. -/
theorem nonsubscribe_framework_checks (s : SchedState) (aj ap : Bool)
    (call : Call) (h : call.ctype ≠ .subscribe) :
    (lookupFramework s.frameworks call.frameworkId = none →
      schedulerDispatch s aj ap call = (.badRequest "Framework cannot be found", s)) ∧
    (lookupFramework s.frameworks call.frameworkId = some false →
      schedulerDispatch s aj ap call = (.forbidden "Framework is not subscribed", s)) := by
  constructor <;> intro hl <;> simp [schedulerDispatch, h, hl]

/-- Witness for C6: a TEARDOWN for an unknown framework id is a bad
request, and a KILL for the known but disconnected framework F1 is
forbidden; the state is unchanged in both cases. -/
theorem nonsubscribe_framework_checks_witness :
    schedulerDispatch schedW true true { ctype := .teardown, frameworkId := "F9" }
      = (.badRequest "Framework cannot be found", schedW) ∧
    schedulerDispatch schedW true true { ctype := .kill, frameworkId := "F1" }
      = (.forbidden "Framework is not subscribed", schedW) :=
  ⟨(nonsubscribe_framework_checks schedW true true
      { ctype := .teardown, frameworkId := "F9" } (by decide)).1 (by decide),
   (nonsubscribe_framework_checks schedW true true
      { ctype := .kill, frameworkId := "F1" } (by decide)).2 (by decide)⟩

/-- C8: for a valid SUBSCRIBE call the response encoding is negotiated
from the accept preferences — JSON if accepted, else protobuf, else the
call is rejected NotAcceptable with no subscription created — and on
success a streaming (pipe-backed) OK response is produced immediately,
independently of the subscription's own asynchronous processing. -/
theorem subscribe_negotiates_encoding (s : SchedState) (aj ap : Bool)
    (call : Call) (h : call.ctype = .subscribe) :
    (aj = true →
      schedulerDispatch s aj ap call =
        (.streamingOk .json,
         { s with actions := s.actions ++ [(.subscribe, call.frameworkId)] })) ∧
    (aj = false → ap = true →
      schedulerDispatch s aj ap call =
        (.streamingOk .protobuf,
         { s with actions := s.actions ++ [(.subscribe, call.frameworkId)] })) ∧
    (aj = false → ap = false →
      schedulerDispatch s aj ap call =
        (.notAcceptable "Expecting Accept to allow application/x-protobuf or application/json",
         s)) := by
  refine ⟨?_, ?_, ?_⟩
  · intro hj
    simp [schedulerDispatch, h, hj]
  · intro hj hp
    simp [schedulerDispatch, h, hj, hp]
  · intro hj hp
    simp [schedulerDispatch, h, hj, hp]

/-- Witness for C8: the three accept configurations on a concrete
SUBSCRIBE call — JSON accepted, only protobuf accepted, neither
accepted. -/
theorem subscribe_negotiates_encoding_witness :
    schedulerDispatch schedW true false { ctype := .subscribe, frameworkId := "F3" }
      = (.streamingOk .json, { schedW with actions := [(.subscribe, "F3")] }) ∧
    schedulerDispatch schedW false true { ctype := .subscribe, frameworkId := "F3" }
      = (.streamingOk .protobuf, { schedW with actions := [(.subscribe, "F3")] }) ∧
    schedulerDispatch schedW false false { ctype := .subscribe, frameworkId := "F3" }
      = (.notAcceptable "Expecting Accept to allow application/x-protobuf or application/json",
         schedW) :=
  ⟨(subscribe_negotiates_encoding schedW true false
      { ctype := .subscribe, frameworkId := "F3" } rfl).1 rfl,
   (subscribe_negotiates_encoding schedW false true
      { ctype := .subscribe, frameworkId := "F3" } rfl).2.1 rfl rfl,
   (subscribe_negotiates_encoding schedW false false
      { ctype := .subscribe, frameworkId := "F3" } rfl).2.2 rfl rfl⟩

/-- C9: the required-to-be-free resources handed to admission are
derived per endpoint, not taken verbatim: create-volumes passes the
requested volumes with every DiskInfo cleared, reserve passes the
requested resources flattened (role and reservation stripped), while
destroy-volumes and unreserve pass the request unchanged; the clearing
and flattening really strip those fields. -/
theorem admission_required_per_endpoint
    (credentials : Option (List Credential)) (b64 : String → Except String String)
    (slaves : List Slave) (headers : List (String × String))
    (sid : SlaveID) (slave : Slave) (volumes resources : Resources) (a : AuthResult)
    (hauth : authenticate credentials b64 headers = some a)
    (herr : a.isError = false)
    (hslave : slaves.find? (fun s => s.id == sid) = some slave) :
    createVolumes credentials b64 slaves "POST" headers none (some sid)
        (some (.ok volumes)) none
      = some (.ok { slaveId := sid, required := removeDiskInfos volumes,
                    operation := { opType := .create, resources := volumes } }) ∧
    reserve credentials b64 slaves "POST" headers none (some sid)
        (some (.ok resources)) none
      = some (.ok { slaveId := sid, required := resources.flatten,
                    operation := { opType := .reserve, resources := resources } }) ∧
    destroyVolumes credentials b64 slaves "POST" headers none (some sid)
        (some (.ok volumes)) none
      = some (.ok { slaveId := sid, required := volumes,
                    operation := { opType := .destroy, resources := volumes } }) ∧
    unreserve credentials b64 slaves "POST" headers none (some sid)
        (some (.ok resources)) none
      = some (.ok { slaveId := sid, required := resources,
                    operation := { opType := .unreserve, resources := resources } }) ∧
    (∀ r ∈ removeDiskInfos volumes, r.disk = none) ∧
    (∀ r ∈ Resources.flatten resources,
      r.role = "*" ∧ r.reservationPrincipal = none) := by
  refine ⟨?_, ?_, ?_, ?_, ?_, ?_⟩
  · cases a with
    | err e => simp [AuthResult.isError] at herr
    | anonymous => simp [createVolumes, hauth, hslave]
    | credential c => simp [createVolumes, hauth, hslave]
  · cases a with
    | err e => simp [AuthResult.isError] at herr
    | anonymous => simp [reserve, hauth, hslave]
    | credential c => simp [reserve, hauth, hslave]
  · cases a with
    | err e => simp [AuthResult.isError] at herr
    | anonymous => simp [destroyVolumes, hauth, hslave]
    | credential c => simp [destroyVolumes, hauth, hslave]
  · cases a with
    | err e => simp [AuthResult.isError] at herr
    | anonymous => simp [unreserve, hauth, hslave]
    | credential c => simp [unreserve, hauth, hslave]
  · intro r hr
    obtain ⟨r', _, hr'⟩ := List.mem_map.mp hr
    rw [← hr']
  · intro r hr
    obtain ⟨r', _, hr'⟩ := List.mem_map.mp hr
    rw [← hr']
    exact ⟨rfl, rfl⟩

/-- Witness for C9: on a concrete agent, the four endpoints admit their
operations with the per-endpoint transformed required resources. -/
theorem admission_required_per_endpoint_witness :
    createVolumes none b64W [slaveW] "POST" [] none (some "S1")
        (some (.ok volW)) none
      = some (.ok { slaveId := "S1", required := removeDiskInfos volW,
                    operation := { opType := .create, resources := volW } }) ∧
    reserve none b64W [slaveW] "POST" [] none (some "S1")
        (some (.ok resW)) none
      = some (.ok { slaveId := "S1", required := resW.flatten,
                    operation := { opType := .reserve, resources := resW } }) ∧
    destroyVolumes none b64W [slaveW] "POST" [] none (some "S1")
        (some (.ok volW)) none
      = some (.ok { slaveId := "S1", required := volW,
                    operation := { opType := .destroy, resources := volW } }) ∧
    unreserve none b64W [slaveW] "POST" [] none (some "S1")
        (some (.ok resW)) none
      = some (.ok { slaveId := "S1", required := resW,
                    operation := { opType := .unreserve, resources := resW } }) := by
  have h := admission_required_per_endpoint none b64W [slaveW] [] "S1" slaveW
    volW resW .anonymous rfl rfl (by decide)
  exact ⟨h.1, h.2.1, h.2.2.1, h.2.2.2.1⟩

/-- Counterexample for C10: with no credentials configured, teardown can
still answer unauthorized (when a configured authorizer denies the ACL
check), and with credentials configured an Authorization header that
contains no space is not rejected as unauthorized — the code reads the
space-split past its end (undefined behaviour, modelled `none`). -/
theorem operator_auth_counterexample :
    teardown none b64W [] "POST" none (some "F1") ["F1"] (some false)
      = some (.unauthorized "Mesos master") ∧
    authenticate (some [credW]) b64W [("Authorization", "userpass")] = none := by
  exact ⟨rfl, rfl⟩

theorem httpOperation_response_not_unauthorized (slaves : List Slave)
    (sid : SlaveID) (req : Resources) (applyOp : Resources → Option Resources)
    (out : Except String Unit) :
    (httpOperation slaves sid req applyOp out).1.isUnauthorized = false := by
  unfold httpOperation
  cases hf : slaves.find? (fun s => s.id == sid) with
  | none => rfl
  | some slave => cases out <;> rfl

theorem endpointResponse_cases (out : Option (Except Response OperationCall))
    (slaves : List Slave) (applyOp : Resources → Option Resources)
    (applyOutcome : Except String Unit) (r : Response)
    (h : endpointResponse out slaves applyOp applyOutcome = some r)
    (hout : ∀ r', out = some (.error r') → r'.isUnauthorized = false) :
    r.isUnauthorized = false := by
  unfold endpointResponse at h
  cases hval : out with
  | none => rw [hval] at h; cases h
  | some x =>
    cases x with
    | error r' =>
      rw [hval] at h
      simp only [Option.some.injEq] at h
      rw [← h]
      exact hout r' hval
    | ok c =>
      rw [hval] at h
      simp only [Option.some.injEq] at h
      rw [← h]
      exact httpOperation_response_not_unauthorized slaves c.slaveId c.required
        applyOp applyOutcome

theorem createVolumes_error_not_unauthorized
    (b64 : String → Except String String) (slaves : List Slave)
    (method : String) (headers : List (String × String))
    (decodeError : Option String) (slaveIdParam : Option String)
    (rp : Option (Except String Resources)) (validateError : Option String)
    (r' : Response)
    (h : createVolumes none b64 slaves method headers decodeError slaveIdParam
      rp validateError = some (.error r')) :
    r'.isUnauthorized = false := by
  unfold createVolumes at h
  simp only [show authenticate none b64 headers = some AuthResult.anonymous from rfl] at h
  repeat' split at h
  all_goals simp only [Option.some.injEq, Except.error.injEq] at h
  all_goals try rw [← h]
  all_goals simp_all [Response.isUnauthorized]

theorem reserve_error_not_unauthorized
    (b64 : String → Except String String) (slaves : List Slave)
    (method : String) (headers : List (String × String))
    (decodeError : Option String) (slaveIdParam : Option String)
    (rp : Option (Except String Resources)) (validateError : Option String)
    (r' : Response)
    (h : reserve none b64 slaves method headers decodeError slaveIdParam
      rp validateError = some (.error r')) :
    r'.isUnauthorized = false := by
  unfold reserve at h
  simp only [show authenticate none b64 headers = some AuthResult.anonymous from rfl] at h
  repeat' split at h
  all_goals simp only [Option.some.injEq, Except.error.injEq] at h
  all_goals try rw [← h]
  all_goals simp_all [Response.isUnauthorized]

theorem destroyVolumes_error_not_unauthorized
    (b64 : String → Except String String) (slaves : List Slave)
    (method : String) (headers : List (String × String))
    (decodeError : Option String) (slaveIdParam : Option String)
    (rp : Option (Except String Resources)) (validateError : Option String)
    (r' : Response)
    (h : destroyVolumes none b64 slaves method headers decodeError slaveIdParam
      rp validateError = some (.error r')) :
    r'.isUnauthorized = false := by
  unfold destroyVolumes at h
  simp only [show authenticate none b64 headers = some AuthResult.anonymous from rfl] at h
  repeat' split at h
  all_goals simp only [Option.some.injEq, Except.error.injEq] at h
  all_goals try rw [← h]
  all_goals simp_all [Response.isUnauthorized]

theorem unreserve_error_not_unauthorized
    (b64 : String → Except String String) (slaves : List Slave)
    (method : String) (headers : List (String × String))
    (decodeError : Option String) (slaveIdParam : Option String)
    (rp : Option (Except String Resources)) (validateError : Option String)
    (r' : Response)
    (h : unreserve none b64 slaves method headers decodeError slaveIdParam
      rp validateError = some (.error r')) :
    r'.isUnauthorized = false := by
  unfold unreserve at h
  simp only [show authenticate none b64 headers = some AuthResult.anonymous from rfl] at h
  repeat' split at h
  all_goals simp only [Option.some.injEq, Except.error.injEq] at h
  all_goals try rw [← h]
  all_goals simp_all [Response.isUnauthorized]

/-- C10 (amended): with no credentials configured, authentication
succeeds for every request with no principal, so reserve, unreserve,
create-volumes and destroy-volumes never answer unauthorized, and
teardown answers unauthorized only from an ACL authorization denial;
with credentials configured, a missing Authorization header, a header
whose space-separated token fails base64 decoding, a decoding without
exactly two colon-separated fields, or a username/password pair
matching no stored credential is rejected as unauthorized before any
state change — while a header containing no space makes the code read
past the end of the split (undefined behaviour), not reject. -/
theorem operator_auth_amended
    (b64 : String → Except String String) (headers : List (String × String))
    (creds : List Credential) :
    authenticate none b64 headers = some .anonymous ∧
    (∀ slaves method decodeError slaveIdParam rp validateError slaves₂ applyOp
        applyOutcome r,
      endpointResponse (createVolumes none b64 slaves method headers decodeError
          slaveIdParam rp validateError) slaves₂ applyOp applyOutcome = some r →
      r.isUnauthorized = false) ∧
    (∀ slaves method decodeError slaveIdParam rp validateError slaves₂ applyOp
        applyOutcome r,
      endpointResponse (reserve none b64 slaves method headers decodeError
          slaveIdParam rp validateError) slaves₂ applyOp applyOutcome = some r →
      r.isUnauthorized = false) ∧
    (∀ slaves method decodeError slaveIdParam rp validateError slaves₂ applyOp
        applyOutcome r,
      endpointResponse (destroyVolumes none b64 slaves method headers decodeError
          slaveIdParam rp validateError) slaves₂ applyOp applyOutcome = some r →
      r.isUnauthorized = false) ∧
    (∀ slaves method decodeError slaveIdParam rp validateError slaves₂ applyOp
        applyOutcome r,
      endpointResponse (unreserve none b64 slaves method headers decodeError
          slaveIdParam rp validateError) slaves₂ applyOp applyOutcome = some r →
      r.isUnauthorized = false) ∧
    (∀ method decodeError fidParam frameworks authorizer msg,
      teardown none b64 headers method decodeError fidParam frameworks authorizer
        = some (.unauthorized msg) →
      authorizer = some false ∧ msg = "Mesos master") ∧
    (headers.find? (fun p => p.1 == "Authorization") = none →
      authenticate (some creds) b64 headers
        = some (.err "Missing Authorization request header")) ∧
    (∀ p tok e, headers.find? (fun p => p.1 == "Authorization") = some p →
      (splitMax2 p.2 ' ').get? 1 = some tok →
      b64 tok = .error e →
      authenticate (some creds) b64 headers
        = some (.err ("Failed to decode Authorization header: " ++ e))) ∧
    (∀ p tok decoded, headers.find? (fun p => p.1 == "Authorization") = some p →
      (splitMax2 p.2 ' ').get? 1 = some tok →
      b64 tok = .ok decoded →
      (splitMax2 decoded ':').length ≠ 2 →
      authenticate (some creds) b64 headers
        = some (.err "Malformed Authorization request header")) ∧
    (∀ p tok decoded username password,
      headers.find? (fun p => p.1 == "Authorization") = some p →
      (splitMax2 p.2 ' ').get? 1 = some tok →
      b64 tok = .ok decoded →
      splitMax2 decoded ':' = [username, password] →
      creds.find? (fun c => c.principal == username && c.secret == password)
        = none →
      authenticate (some creds) b64 headers
        = some (.err ("Could not authenticate " ++ username))) ∧
    (∀ p, headers.find? (fun p => p.1 == "Authorization") = some p →
      (splitMax2 p.2 ' ').get? 1 = none →
      authenticate (some creds) b64 headers = none) := by
  refine ⟨rfl, ?_, ?_, ?_, ?_, ?_, ?_, ?_, ?_, ?_, ?_⟩
  · intro slaves method decodeError slaveIdParam rp validateError slaves₂ applyOp
      applyOutcome r h
    exact endpointResponse_cases _ _ _ _ _ h
      (fun r' hr' => createVolumes_error_not_unauthorized b64 slaves method headers
        decodeError slaveIdParam rp validateError r' hr')
  · intro slaves method decodeError slaveIdParam rp validateError slaves₂ applyOp
      applyOutcome r h
    exact endpointResponse_cases _ _ _ _ _ h
      (fun r' hr' => reserve_error_not_unauthorized b64 slaves method headers
        decodeError slaveIdParam rp validateError r' hr')
  · intro slaves method decodeError slaveIdParam rp validateError slaves₂ applyOp
      applyOutcome r h
    exact endpointResponse_cases _ _ _ _ _ h
      (fun r' hr' => destroyVolumes_error_not_unauthorized b64 slaves method headers
        decodeError slaveIdParam rp validateError r' hr')
  · intro slaves method decodeError slaveIdParam rp validateError slaves₂ applyOp
      applyOutcome r h
    exact endpointResponse_cases _ _ _ _ _ h
      (fun r' hr' => unreserve_error_not_unauthorized b64 slaves method headers
        decodeError slaveIdParam rp validateError r' hr')
  · intro method decodeError fidParam frameworks authorizer msg h
    unfold teardown at h
    simp only [show authenticate none b64 headers = some AuthResult.anonymous from rfl] at h
    repeat' split at h
    all_goals simp_all
  · intro hfind
    simp only [authenticate, hfind]
  · intro p tok e hfind hget hb
    simp only [authenticate, hfind, hget, hb]
  · intro p tok decoded hfind hget hb hlen
    rcases hsp : splitMax2 decoded ':' with _ | ⟨u, t⟩
    · simp only [authenticate, hfind, hget, hb, hsp]
    · rcases t with _ | ⟨pw, t₂⟩
      · simp only [authenticate, hfind, hget, hb, hsp]
      · rcases t₂ with _ | ⟨c, t₃⟩
        · exact absurd (show (splitMax2 decoded ':').length = 2 by rw [hsp]; rfl) hlen
        · simp only [authenticate, hfind, hget, hb, hsp]
  · intro p tok decoded username password hfind hget hb hsp hfc
    simp only [authenticate, hfind, hget, hb, hsp, hfc]
  · intro p hfind hget
    simp only [authenticate, hfind, hget]

/-- Witness for the amended C10, exercising each branch at concrete
inputs: anonymous success with no credentials; a non-unauthorized
endpoint rejection; the teardown ACL conclusion; and with credentials
configured, the missing-header, undecodable, colon-free, no-match and
no-space (crash) cases. -/
theorem operator_auth_amended_witness :
    authenticate none b64W [] = some .anonymous ∧
    (Response.badRequest "Expecting POST").isUnauthorized = false ∧
    ((some false : Option Bool) = some false ∧ "Mesos master" = "Mesos master") ∧
    authenticate (some [credW]) b64W []
      = some (.err "Missing Authorization request header") ∧
    authenticate (some [credW]) b64ErrW [("Authorization", "Basic xyz")]
      = some (.err ("Failed to decode Authorization header: " ++ "bad")) ∧
    authenticate (some [credW]) b64W [("Authorization", "Basic nocolon")]
      = some (.err "Malformed Authorization request header") ∧
    authenticate (some [credW]) b64W [("Authorization", "Basic user:wrong")]
      = some (.err ("Could not authenticate " ++ "user")) ∧
    authenticate (some [credW]) b64W [("Authorization", "userpass")] = none := by
  have h₁ := operator_auth_amended b64W [] [credW]
  have h₂ := operator_auth_amended b64ErrW [("Authorization", "Basic xyz")] [credW]
  have h₃ := operator_auth_amended b64W [("Authorization", "Basic nocolon")] [credW]
  have h₄ := operator_auth_amended b64W [("Authorization", "Basic user:wrong")] [credW]
  have h₅ := operator_auth_amended b64W [("Authorization", "userpass")] [credW]
  refine ⟨h₁.1, ?_, ?_, h₁.2.2.2.2.2.2.1 rfl, ?_, ?_, ?_, ?_⟩
  · exact h₁.2.1 [] "GET" none none none none [] (fun _ => none) (.ok ())
      (.badRequest "Expecting POST") rfl
  · exact h₁.2.2.2.2.2.1 "POST" none (some "F1") ["F1"] (some false)
      "Mesos master" rfl
  · exact h₂.2.2.2.2.2.2.2.1 ("Authorization", "Basic xyz") "xyz" "bad"
      rfl (by decide) rfl
  · exact h₃.2.2.2.2.2.2.2.2.1 ("Authorization", "Basic nocolon") "nocolon"
      "nocolon" rfl (by decide) rfl (by decide)
  · exact h₄.2.2.2.2.2.2.2.2.2.1 ("Authorization", "Basic user:wrong") "user:wrong"
      "user:wrong" "user" "wrong" rfl (by decide) rfl (by decide) (by decide)
  · exact h₅.2.2.2.2.2.2.2.2.2.2 ("Authorization", "userpass") rfl (by decide)

end Mesos
